import Mathlib

/-!
# Verification of the Trelica audit-log puller (`src/audit-logs/index.js`)

Shallow embedding of the `TrelicaLogPuller` class.  External collaborators
(the OAuth token endpoint, the paginated log API, `JSON.parse`/`JSON.stringify`
for the output file, and the wall clock) are modelled as components of an
`Env` value; the two files the program touches (bookmark file, output file)
are modelled by their contents in a `Files` record.  The `while (hasMore)`
loop is modelled with explicit fuel; a run records a trace of the externally
visible persistence events (fetch requests issued, records appended to the
output file, bookmark writes), which is what the temporal/ordering claims
are about.

Time is modelled in a single timezone (the JS code mixes local-time month
arithmetic with UTC `toISOString`; the model works in one zone, which is the
spec's granularity).  The clock is held constant during a run.
-/

namespace Trelica

/-- JSON values, as far as the puller can observe them.  Record payloads are
opaque to the core (it only counts and concatenates them), so the exact leaf
repertoire is irrelevant; numbers are modelled as integers.  A top-level JSON
string is omitted from the universe: of the non-array values only strings have
a `.concat` method in JS, and no code path in this development parses one. -/
inductive Json where
  | null : Json
  | bool (b : Bool) : Json
  | num (n : Int) : Json
  | arr (elems : List Json) : Json
  | obj (fields : List (String × Json)) : Json

/-- A record (one audit-log entry) is an opaque JSON value. -/
abbrev Record := Json

/-! ## Dates: the subset of JS `Date` used by `loadBookmark`.

`loadBookmark` does `d.setMonth(d.getMonth() - N)` followed by
`d.toISOString()`.  We model a broken-down date-time and the JS `setMonth`
normalization (year rollover for negative month values, day-of-month overflow
rolling into the following month). -/

structure DateTime where
  year : Int
  /-- 0-based month, 0..11 (JS convention). -/
  month : Nat
  /-- 1-based day of month. -/
  day : Nat
  hour : Nat
  minute : Nat
  second : Nat
  millisecond : Nat
  deriving DecidableEq, Repr

def isLeapYear (y : Int) : Bool :=
  y % 4 == 0 && (y % 100 != 0 || y % 400 == 0)

/-- Days in 0-based month `m` of year `y`. -/
def daysInMonth (y : Int) (m : Nat) : Nat :=
  if m = 1 then (if isLeapYear y then 29 else 28)
  else if m = 3 || m = 5 || m = 8 || m = 10 then 30
  else 31

/-- JS `d.setMonth(d.getMonth() - n)`: the month value `month - n` (possibly
negative) is normalized into year/month by flooring division; if the
day-of-month exceeds the target month's length it rolls into the following
month.  Since `day ≤ 31` and every month has ≥ 28 days, one rollover step
suffices. -/
def setMonthBack (d : DateTime) (n : Nat) : DateTime :=
  let t : Int := (d.month : Int) - (n : Int)
  let y : Int := d.year + Int.fdiv t 12
  let m : Nat := (Int.fmod t 12).toNat
  let dim : Nat := daysInMonth y m
  if d.day ≤ dim then
    { d with year := y, month := m }
  else
    { d with
      year := if m = 11 then y + 1 else y
      month := if m = 11 then 0 else m + 1
      day := d.day - dim }

/-- Zero-pad the decimal representation of `n` to width `w`. -/
def padNum (w : Nat) (n : Nat) : String :=
  let s := toString n
  String.mk (List.replicate (w - s.length) '0') ++ s

/-- JS `Date.prototype.toISOString` (for years 0..9999):
`YYYY-MM-DDTHH:mm:ss.sssZ`, month printed 1-based. -/
def toISOString (d : DateTime) : String :=
  padNum 4 d.year.toNat ++ "-" ++ padNum 2 (d.month + 1) ++ "-" ++ padNum 2 d.day ++
    "T" ++ padNum 2 d.hour ++ ":" ++ padNum 2 d.minute ++ ":" ++ padNum 2 d.second ++
    "." ++ padNum 3 d.millisecond ++ "Z"

def hexDigitChar (n : Nat) : Char :=
  if n < 10 then Char.ofNat (48 + n) else Char.ofNat (55 + n)

/-- `%XX` percent-encoding of one byte, uppercase hex. -/
def percentByte (b : Nat) : String :=
  "%" ++ (hexDigitChar (b / 16)).toString ++ (hexDigitChar (b % 16)).toString

/-- UTF-8 bytes of one scalar value. -/
def utf8Bytes (c : Char) : List Nat :=
  let n := c.toNat
  if n < 128 then [n]
  else if n < 2048 then [192 + n / 64, 128 + n % 64]
  else if n < 65536 then [224 + n / 4096, 128 + (n / 64) % 64, 128 + n % 64]
  else [240 + n / 262144, 128 + (n / 4096) % 64, 128 + (n / 64) % 64, 128 + n % 64]

/-- The characters JS `encodeURIComponent` leaves unescaped:
`A-Z a-z 0-9 - _ . ! ~ * ' ( )` (the punctuation given by code point). -/
def isUnreservedChar (c : Char) : Bool :=
  (65 ≤ c.toNat && c.toNat ≤ 90) || (97 ≤ c.toNat && c.toNat ≤ 122) ||
    (48 ≤ c.toNat && c.toNat ≤ 57) || [45, 95, 46, 33, 126, 42, 39, 40, 41].contains c.toNat

/-- JS `encodeURIComponent`. -/
def encodeURIComponent (s : String) : String :=
  String.join (s.toList.map fun c =>
    if isUnreservedChar c then c.toString
    else String.join ((utf8Bytes c).map percentByte))

/-! ## Configuration (the `TrelicaLogPuller` constructor). -/

/-- JS `x || default` for an optional string field: `undefined` and the empty
string are falsy. -/
def orDefault (o : Option String) (dflt : String) : String :=
  match o with
  | none => dflt
  | some s => if s = "" then dflt else s

/-- The raw `config` object handed to the constructor.  Credentials and file
paths only shape the external requests and which files are touched; they are
abstracted into `Env` and `Files` and not carried further. -/
structure ConfigIn where
  host : Option String := none
  initialLookbackMonths : Option Nat := none

/-- The constructor-resolved fields the core logic reads. -/
structure Puller where
  host : String
  initialLookbackMonths : Nat

/-- `constructor(config)`: `this.host = config.host || 'app.trelica.com'`;
`this.initialLookbackMonths = config.initialLookbackMonths || 3` (JS `||`, so
an explicit `0` also falls back to 3). -/
def mkPuller (c : ConfigIn) : Puller :=
  { host := orDefault c.host "app.trelica.com"
    initialLookbackMonths :=
      match c.initialLookbackMonths with
      | none => 3
      | some n => if n = 0 then 3 else n }

/-! ## Persisted state: the bookmark file and the output file. -/

/-- The JSON object written to the bookmark file (`saveBookmark` writes
`nextUrl` and `lastUpdated`; the caught-up write adds `note`).  `nextUrl` is
optional because `JSON.stringify` drops an `undefined` field and a parsed file
may lack it. -/
structure BookmarkData where
  nextUrl : Option String
  lastUpdated : String
  note : Option String
  deriving DecidableEq, Repr

/-- Contents of the bookmark file as `loadBookmark` can observe them:
missing (read throws), corrupt (`JSON.parse` throws, or the parsed value has
no readable `nextUrl` because property access throws), or a parsed object. -/
inductive BookmarkFile where
  | missing : BookmarkFile
  | corrupt : BookmarkFile
  | data (b : BookmarkData) : BookmarkFile
  deriving DecidableEq, Repr

/-- The two files the program touches, by contents.  The output file is kept
as raw text (`none` = absent/unreadable), since `appendLogsToFile` re-parses
it each call. -/
structure Files where
  bookmarkFile : BookmarkFile
  outputFile : Option String
  deriving DecidableEq, Repr

/-- Instance state of `TrelicaLogPuller` (`this.accessToken`, `this.bookmark`)
together with the files. -/
structure St where
  accessToken : Option String
  bookmark : Option String
  files : Files
  deriving DecidableEq, Repr

/-! ## The external world. -/

/-- One page returned by the log API: JSON `{results?: [...], next?: string}`.
`results = none` models an absent or null `results` field. -/
structure Page where
  results : Option (List Record)
  next : Option String

/-- Response of the token endpoint: `{access_token}` on 2xx, otherwise a
status and the error payload's `error` field (`none` = field absent). -/
inductive AuthResponse where
  | ok (accessToken : String) : AuthResponse
  | httpErr (status : Nat) (errorField : Option String) : AuthResponse

/-- Response of a `GET` on a locator: a page on 2xx, otherwise a status and
the payload's `title`/`message` fields. -/
inductive FetchResponse where
  | ok (p : Page) : FetchResponse
  | httpErr (status : Nat) (title : Option String) (message : Option String) : FetchResponse

/-- The errors a run can end with, mirroring the `throw new Error(...)` sites
plus the `TypeError`s JS raises on the two unmodelled-value paths. -/
inductive PullError where
  | authFailed (status : Nat) (errorField : Option String) : PullError
  | notAuthenticated : PullError
  | invalidUrl : PullError
  | fetchFailed (status : Nat) (detail : Option String) : PullError
  | concatTypeError : PullError
  deriving DecidableEq, Repr

/-- The environment of one run: the token endpoint's answer, the log API as a
function of the locator fetched, the wall clock (held constant), and the JSON
(de)serialization used for the output file (`JSON.parse` returning `none`
models a parse exception; `stringify` abstracts
`JSON.stringify(allLogs, null, 2)`). -/
structure Env where
  auth : AuthResponse
  api : String → FetchResponse
  now : DateTime
  parse : String → Option Json
  stringify : List Json → String

/-- JS `a || b` on the two optional error-detail strings
(`error.title || error.message`). -/
def jsOrStr (a b : Option String) : Option String :=
  match a with
  | some s => if s = "" then b else some s
  | none => b

/-! ## Events: the externally visible actions of a run, in order. -/

/-- Trace events.  `append` carries the page's continuation locator so the
ordering claims can tie a bookmark write to the page whose records back it. -/
inductive Event where
  | fetch (url : String) : Event
  | append (logs : List Record) (next : Option String) : Event
  | saveNext (url : String) : Event
  | saveCaughtUp (b : BookmarkData) : Event

inductive Outcome where
  | done : Outcome
  | fuelOut : Outcome
  | err (e : PullError) : Outcome
  deriving DecidableEq, Repr

/-- Result of a run: final state, the `totalLogsPulled` counter as reported at
the end of `pullLogs`, the event trace, and how the run ended. -/
structure RunOut where
  st : St
  total : Nat
  trace : List Event
  outcome : Outcome

/-! ## The operations (methods of `TrelicaLogPuller`). -/

/-- `authenticate()`: non-2xx throws
`Authentication failed: {status} - {error.error}`; 2xx stores the token. -/
def authenticate (env : Env) (st : St) : Except PullError St :=
  match env.auth with
  | .ok tok => .ok { st with accessToken := some tok }
  | .httpErr status errorField => .error (.authFailed status errorField)

/-- The seed locator synthesized when no valid bookmark exists:
`https://{host}/api/audit/v1/logs?limit=1000&since=${encodeURIComponent(sinceParam)}`
with `sinceParam` the ISO string of now minus `initialLookbackMonths`
months. -/
def seedUrl (p : Puller) (now : DateTime) : String :=
  "https://" ++ p.host ++ "/api/audit/v1/logs?limit=1000&since=" ++
    encodeURIComponent (toISOString (setMonthBack now p.initialLookbackMonths))

/-- `loadBookmark()`: reads and parses the bookmark file and takes its
`nextUrl`; any exception (missing file, malformed JSON) falls back to the
synthesized seed locator. -/
def loadBookmark (p : Puller) (env : Env) (st : St) : St :=
  match st.files.bookmarkFile with
  | .data b => { st with bookmark := b.nextUrl }
  | _ => { st with bookmark := some (seedUrl p env.now) }

/-- `saveBookmark(nextUrl)`: writes `{nextUrl, lastUpdated}` to the bookmark
file and updates `this.bookmark`. -/
def saveBookmark (env : Env) (st : St) (nextUrl : String) : St :=
  { st with
    bookmark := some nextUrl
    files := { st.files with
      bookmarkFile := .data ⟨some nextUrl, toISOString env.now, none⟩ } }

/-- `fetchLogs()`: throws `Not authenticated` before any request if no token
is held; then issues `GET this.bookmark` (a missing bookmark makes `fetch`
itself throw, also before a request reaches the API); non-2xx throws with the
status and `error.title || error.message`.  Returns the events of requests
actually issued alongside the result. -/
def fetchLogs (env : Env) (st : St) : List Event × Except PullError Page :=
  match st.accessToken with
  | none => ([], .error .notAuthenticated)
  | some _ =>
    match st.bookmark with
    | none => ([], .error .invalidUrl)
    | some url =>
      match env.api url with
      | .ok p => ([.fetch url], .ok p)
      | .httpErr status title message =>
          ([.fetch url], .error (.fetchFailed status (jsOrStr title message)))

/-- `appendLogsToFile(logs)`: no-op on an empty list; otherwise reads the
existing output file, recovering to `[]` if the read or `JSON.parse` throws;
concatenates and writes back.  A successfully parsed non-array value has no
`.concat` method (strings, the one exception, are outside the modelled `Json`
universe), so JS raises a `TypeError` outside the catch block. -/
def appendLogsToFile (env : Env) (st : St) (logs : List Record) :
    Except PullError St :=
  if logs.isEmpty then .ok st
  else
    match st.files.outputFile with
    | none =>
        .ok { st with files := { st.files with
                outputFile := some (env.stringify ([] ++ logs)) } }
    | some existingData =>
      match env.parse existingData with
      | none =>
          .ok { st with files := { st.files with
                  outputFile := some (env.stringify ([] ++ logs)) } }
      | some (.arr existingLogs) =>
          .ok { st with files := { st.files with
                  outputFile := some (env.stringify (existingLogs ++ logs)) } }
      | some _ => .error .concatTypeError

/-- The note written when the run has caught up to real time. -/
def caughtUpNote : String := "Caught up to real-time - no new logs available"

/-- JS truthiness of `response.next`: absent/null and `""` are falsy. -/
def truthyStr (o : Option String) : Option String :=
  match o with
  | none => none
  | some s => if s = "" then none else some s

/-- The `while (hasMore)` loop of `pullLogs()`, with explicit fuel bounding
the number of iterations.  Each iteration fetches at the current bookmark;
with ≥ 1 record it appends to the output file, adds to the running total, and
either saves the continuation locator as the new bookmark (truthy
`response.next`) and loops, or stops; with 0 records it stops and re-writes
the bookmark file at the current locator with the caught-up note. -/
def runLoop (env : Env) (fuel : Nat) (st : St) (total : Nat) : RunOut :=
  match fuel with
  | 0 => ⟨st, total, [], .fuelOut⟩
  | fuel + 1 =>
    match fetchLogs env st with
    | (evs, .error e) => ⟨st, total, evs, .err e⟩
    | (evs, .ok page) =>
      let logs := page.results.getD []
      if logs.length > 0 then
        match appendLogsToFile env st logs with
        | .error e => ⟨st, total, evs, .err e⟩
        | .ok st₁ =>
          match truthyStr page.next with
          | some u =>
            let st₂ := saveBookmark env st₁ u
            let rest := runLoop env fuel st₂ (total + logs.length)
            ⟨rest.st, rest.total,
              evs ++ [.append logs page.next, .saveNext u] ++ rest.trace,
              rest.outcome⟩
          | none =>
            ⟨st₁, total + logs.length, evs ++ [.append logs page.next], .done⟩
      else
        let b : BookmarkData := ⟨st.bookmark, toISOString env.now, some caughtUpNote⟩
        ⟨{ st with files := { st.files with bookmarkFile := .data b } },
          total, evs ++ [.saveCaughtUp b], .done⟩

/-- `pullLogs()`: authenticate (an `AuthError` aborts before anything else),
resolve the starting bookmark, then run the loop from total 0. -/
def pullLogs (p : Puller) (env : Env) (fuel : Nat) (files : Files) : RunOut :=
  let st₀ : St := ⟨none, none, files⟩
  match authenticate env st₀ with
  | .error e => ⟨st₀, 0, [], .err e⟩
  | .ok st₁ => runLoop env fuel (loadBookmark p env st₁) 0

/-! ## Trace predicates. -/

/-- The ordering invariant on a trace: every `saveNext u` event is immediately
preceded by the `append` of a non-empty page whose continuation locator is
that same `u` — i.e. a cursor is only persisted right after the records of the
page that produced it have been written to the sink. -/
def goodEvents : List Event → Bool
  | [] => true
  | .append l (some u) :: .saveNext u2 :: t => (u == u2) && !l.isEmpty && goodEvents t
  | .saveNext _ :: _ => false
  | _ :: t => goodEvents t

/-- Total number of records carried by the `append` events of a trace. -/
def appendedCount : List Event → Nat
  | [] => 0
  | .append l _ :: t => l.length + appendedCount t
  | _ :: t => appendedCount t

/-! ## Branch lemmas for one iteration of the loop. -/

theorem truthyStr_eq_some {o : Option String} {u : String}
    (h : truthyStr o = some u) : o = some u := by
  cases o with
  | none => simp [truthyStr] at h
  | some s =>
    simp only [truthyStr] at h
    split at h
    · exact absurd h (by simp)
    · simpa using h

theorem runLoop_err (env : Env) (fuel : Nat) (st : St) (total : Nat)
    {evs : List Event} {e : PullError} (h : fetchLogs env st = (evs, .error e)) :
    runLoop env (fuel + 1) st total = ⟨st, total, evs, .err e⟩ := by
  simp only [runLoop, h]

theorem runLoop_caught (env : Env) (fuel : Nat) (st : St) (total : Nat)
    {evs : List Event} {page : Page} (h : fetchLogs env st = (evs, .ok page))
    (hz : page.results.getD [] = []) :
    runLoop env (fuel + 1) st total =
      ⟨{ st with files := { st.files with bookmarkFile :=
            (BookmarkFile.data ⟨st.bookmark, toISOString env.now, some caughtUpNote⟩) } },
        total,
        (evs ++ [Event.saveCaughtUp ⟨st.bookmark, toISOString env.now, some caughtUpNote⟩]),
        .done⟩ := by
  simp only [runLoop, h, hz, List.length_nil, gt_iff_lt, lt_self_iff_false, if_false]

theorem runLoop_append_err (env : Env) (fuel : Nat) (st : St) (total : Nat)
    {evs : List Event} {page : Page} {e : PullError}
    (h : fetchLogs env st = (evs, .ok page))
    (hnz : page.results.getD [] ≠ [])
    (ha : appendLogsToFile env st (page.results.getD []) = .error e) :
    runLoop env (fuel + 1) st total = ⟨st, total, evs, .err e⟩ := by
  simp only [runLoop, h, ha, gt_iff_lt, List.length_pos.mpr hnz, if_true]

theorem runLoop_records_end (env : Env) (fuel : Nat) (st : St) (total : Nat)
    {evs : List Event} {page : Page} {st₁ : St}
    (h : fetchLogs env st = (evs, .ok page))
    (hnz : page.results.getD [] ≠ [])
    (ha : appendLogsToFile env st (page.results.getD []) = .ok st₁)
    (hn : truthyStr page.next = none) :
    runLoop env (fuel + 1) st total =
      ⟨st₁, total + (page.results.getD []).length,
        evs ++ [.append (page.results.getD []) page.next], .done⟩ := by
  simp only [runLoop, h, ha, hn, gt_iff_lt, List.length_pos.mpr hnz, if_true]

theorem runLoop_records_cont (env : Env) (fuel : Nat) (st : St) (total : Nat)
    {evs : List Event} {page : Page} {st₁ : St} {u : String}
    (h : fetchLogs env st = (evs, .ok page))
    (hnz : page.results.getD [] ≠ [])
    (ha : appendLogsToFile env st (page.results.getD []) = .ok st₁)
    (hn : truthyStr page.next = some u) :
    runLoop env (fuel + 1) st total =
      ⟨(runLoop env fuel (saveBookmark env st₁ u) (total + (page.results.getD []).length)).st,
        (runLoop env fuel (saveBookmark env st₁ u) (total + (page.results.getD []).length)).total,
        evs ++ [.append (page.results.getD []) page.next, .saveNext u] ++
          (runLoop env fuel (saveBookmark env st₁ u) (total + (page.results.getD []).length)).trace,
        (runLoop env fuel (saveBookmark env st₁ u) (total + (page.results.getD []).length)).outcome⟩ := by
  simp only [runLoop, h, ha, hn, gt_iff_lt, List.length_pos.mpr hnz, if_true]

/-! ## Run-level invariants. -/

theorem fetchLogs_events (env : Env) (st : St) :
    (fetchLogs env st).1 = [] ∨ ∃ u, (fetchLogs env st).1 = [Event.fetch u] := by
  rcases htok : st.accessToken with _ | tok
  · simp [fetchLogs, htok]
  · rcases hbm : st.bookmark with _ | url
    · simp [fetchLogs, htok, hbm]
    · rcases hapi : env.api url with p | ⟨s, t, m⟩
      · exact Or.inr ⟨url, by simp [fetchLogs, htok, hbm, hapi]⟩
      · exact Or.inr ⟨url, by simp [fetchLogs, htok, hbm, hapi]⟩

theorem goodEvents_fetch_cons (u : String) (t : List Event) :
    goodEvents (.fetch u :: t) = goodEvents t := rfl

theorem goodEvents_caught_cons (b : BookmarkData) (t : List Event) :
    goodEvents (.saveCaughtUp b :: t) = goodEvents t := rfl

theorem goodEvents_append_one (l : List Record) (nx : Option String) :
    goodEvents [.append l nx] = true := by
  cases nx <;> rfl

theorem goodEvents_pair (l : List Record) (u : String) (t : List Event)
    (hl : l ≠ []) :
    goodEvents (.append l (some u) :: .saveNext u :: t) = goodEvents t := by
  have h1 : (u == u) = true := beq_self_eq_true u
  have h2 : l.isEmpty = false := by
    cases l with
    | nil => exact absurd rfl hl
    | cons a t2 => rfl
  simp [goodEvents, h1, h2]

/-- In every trace the loop can produce, a `saveNext` is immediately preceded
by the `append` of its page's (non-empty) records. -/
theorem runLoop_good (env : Env) :
    ∀ fuel st total, goodEvents (runLoop env fuel st total).trace = true := by
  intro fuel
  induction fuel with
  | zero => intro st total; rfl
  | succ n ih =>
    intro st total
    rcases hf : fetchLogs env st with ⟨evs, r⟩
    have hevs : evs = [] ∨ ∃ u, evs = [Event.fetch u] := by
      have h := fetchLogs_events env st
      rw [hf] at h
      exact h
    rcases r with e | page
    · rw [runLoop_err env n st total hf]
      rcases hevs with h | ⟨u, h⟩ <;> subst h <;> rfl
    · by_cases hz : page.results.getD [] = []
      · rw [runLoop_caught env n st total hf hz]
        rcases hevs with h | ⟨u, h⟩ <;> subst h <;> rfl
      · rcases ha : appendLogsToFile env st (page.results.getD []) with e | st₁
        · rw [runLoop_append_err env n st total hf hz ha]
          rcases hevs with h | ⟨u, h⟩ <;> subst h <;> rfl
        · rcases hn : truthyStr page.next with _ | u
          · rw [runLoop_records_end env n st total hf hz ha hn]
            rcases hevs with h | ⟨v, h⟩ <;> subst h
            · simpa using goodEvents_append_one (page.results.getD []) page.next
            · simpa [goodEvents_fetch_cons] using
                goodEvents_append_one (page.results.getD []) page.next
          · rw [runLoop_records_cont env n st total hf hz ha hn]
            rw [truthyStr_eq_some hn]
            rcases hevs with h | ⟨v, h⟩ <;> subst h
            · simpa [goodEvents_pair _ _ _ hz] using
                ih (saveBookmark env st₁ u) (total + (page.results.getD []).length)
            · simpa [goodEvents_fetch_cons, goodEvents_pair _ _ _ hz] using
                ih (saveBookmark env st₁ u) (total + (page.results.getD []).length)

theorem appendedCount_concat (a b : List Event) :
    appendedCount (a ++ b) = appendedCount a + appendedCount b := by
  induction a with
  | nil => simp [appendedCount]
  | cons e t ih =>
    cases e
    case append l nx => simp [appendedCount, ih, Nat.add_assoc]
    all_goals simpa [appendedCount] using ih

/-- The running total is exactly the number of records carried by the trace's
`append` events, whatever the starting total and however the run ends. -/
theorem runLoop_total (env : Env) :
    ∀ fuel st total,
      (runLoop env fuel st total).total =
        total + appendedCount (runLoop env fuel st total).trace := by
  intro fuel
  induction fuel with
  | zero => intro st total; simp [runLoop, appendedCount]
  | succ n ih =>
    intro st total
    rcases hf : fetchLogs env st with ⟨evs, r⟩
    have hevs : evs = [] ∨ ∃ u, evs = [Event.fetch u] := by
      have h := fetchLogs_events env st
      rw [hf] at h
      exact h
    have hevc : appendedCount evs = 0 := by
      rcases hevs with h | ⟨u, h⟩ <;> subst h <;> rfl
    rcases r with e | page
    · rw [runLoop_err env n st total hf]
      simp [hevc]
    · by_cases hz : page.results.getD [] = []
      · rw [runLoop_caught env n st total hf hz]
        simp [appendedCount_concat, hevc, appendedCount]
      · rcases ha : appendLogsToFile env st (page.results.getD []) with e | st₁
        · rw [runLoop_append_err env n st total hf hz ha]
          simp [hevc]
        · rcases hn : truthyStr page.next with _ | u
          · rw [runLoop_records_end env n st total hf hz ha hn]
            simp [appendedCount_concat, hevc, appendedCount]
          · rw [runLoop_records_cont env n st total hf hz ha hn]
            have := ih (saveBookmark env st₁ u) (total + (page.results.getD []).length)
            simp only [appendedCount_concat, hevc, appendedCount] at this ⊢
            omega

/-- `appendLogsToFile` only rewrites the output file: when it succeeds, the
bookmark file (and the rest of the instance state) is untouched. -/
theorem appendLogsToFile_bookmarkFile {env : Env} {st : St} {logs : List Record}
    {st₁ : St} (h : appendLogsToFile env st logs = .ok st₁) :
    st₁.files.bookmarkFile = st.files.bookmarkFile := by
  unfold appendLogsToFile at h
  split at h
  · cases h
    rfl
  · split at h
    · cases h
      rfl
    · split at h
      · cases h
        rfl
      · cases h
        rfl
      · cases h

/-! ## The claims. -/

/-- C1: for every run, a cursor is persisted only strictly after the records
of its page have been appended to the output file: in the run's event trace,
every `saveNext` event is immediately preceded by the `append` event of that
same page's non-empty record list (the `goodEvents` predicate). -/
theorem C1_append_before_cursor_save
    (p : Puller) (env : Env) (fuel : Nat) (files : Files) :
    goodEvents (pullLogs p env fuel files).trace = true := by
  rcases h : authenticate env ⟨none, none, files⟩ with e | st₁
  · simp only [pullLogs, h]
    rfl
  · simp only [pullLogs, h]
    exact runLoop_good env fuel (loadBookmark p env st₁) 0

/-- C2 counterexample: a run whose single successful fetch returns one record
but no continuation locator.  The trace shows the fetch succeeded and its
record was appended, yet the bookmark file afterwards is exactly the file the
run started from: the cursor was not overwritten, refuting "the persisted
cursor is overwritten ... in particular ... for a fetch that returns at least
one record but no continuation locator". -/
theorem C2_counterexample :
    (pullLogs ⟨"app.trelica.com", 3⟩
        ⟨.ok "tok", fun _ => .ok ⟨some [Json.num 7], none⟩,
          ⟨2026, 9, 12, 8, 30, 0, 0⟩, fun _ => none, fun _ => "[out]"⟩
        5 ⟨.data ⟨some "L1", "T0", none⟩, none⟩).trace
      = [.fetch "L1", .append [Json.num 7] none] ∧
    (pullLogs ⟨"app.trelica.com", 3⟩
        ⟨.ok "tok", fun _ => .ok ⟨some [Json.num 7], none⟩,
          ⟨2026, 9, 12, 8, 30, 0, 0⟩, fun _ => none, fun _ => "[out]"⟩
        5 ⟨.data ⟨some "L1", "T0", none⟩, none⟩).st.files.bookmarkFile
      = .data ⟨some "L1", "T0", none⟩ := by
  exact ⟨rfl, rfl⟩

/-- C2 (amended): after a successful fetch that returns new records together
with a (truthy) continuation locator the persisted cursor is overwritten with
that locator, and after a successful fetch that returns zero records the
cursor is re-persisted at the current locator with the caught-up note; but a
fetch that returns records without a continuation locator ends the run with
the persisted cursor unchanged. -/
theorem C2_amended_cursor_persistence
    (env : Env) (st : St) (total : Nat) (tok b : String) (page : Page)
    (htok : st.accessToken = some tok) (hbm : st.bookmark = some b)
    (hapi : env.api b = .ok page) :
    (∀ l u st₁, page.results = some l → l ≠ [] → truthyStr page.next = some u →
        appendLogsToFile env st l = .ok st₁ →
        (runLoop env 1 st total).st.files.bookmarkFile =
          .data ⟨some u, toISOString env.now, none⟩) ∧
    (page.results.getD [] = [] →
        (runLoop env 1 st total).st.files.bookmarkFile =
          .data ⟨some b, toISOString env.now, some caughtUpNote⟩) ∧
    (∀ l st₁, page.results = some l → l ≠ [] → truthyStr page.next = none →
        appendLogsToFile env st l = .ok st₁ →
        (runLoop env 1 st total).st.files.bookmarkFile =
          st.files.bookmarkFile) := by
  have hf : fetchLogs env st = ([.fetch b], .ok page) := by
    simp [fetchLogs, htok, hbm, hapi]
  refine ⟨?_, ?_, ?_⟩
  · intro l u st₁ hres hne hn ha
    have hz : page.results.getD [] ≠ [] := by simp [hres, hne]
    have ha2 : appendLogsToFile env st (page.results.getD []) = .ok st₁ := by
      rw [hres]
      exact ha
    rw [runLoop_records_cont env 0 st total hf hz ha2 hn]
    rfl
  · intro hz
    rw [runLoop_caught env 0 st total hf hz, hbm]
  · intro l st₁ hres hne hn ha
    have hz : page.results.getD [] ≠ [] := by simp [hres, hne]
    have ha2 : appendLogsToFile env st (page.results.getD []) = .ok st₁ := by
      rw [hres]
      exact ha
    rw [runLoop_records_end env 0 st total hf hz ha2 hn]
    exact appendLogsToFile_bookmarkFile ha

/-- C2 witness: the two amended persistence cases and the unchanged case,
each at a concrete input. -/
theorem C2_amended_witness :
    ((⟨some "tok", some "L1", ⟨.missing, none⟩⟩ : St).accessToken = some "tok" ∧
      (runLoop
        ⟨.ok "tok", fun _ => .ok ⟨some [Json.num 7], some "L2"⟩,
          ⟨2026, 9, 12, 8, 30, 0, 0⟩, fun _ => none, fun _ => "[out]"⟩ 1
        ⟨some "tok", some "L1", ⟨.missing, none⟩⟩ 0).st.files.bookmarkFile =
        .data ⟨some "L2", "2026-10-12T08:30:00.000Z", none⟩) ∧
    ((runLoop
        ⟨.ok "tok", fun _ => .ok ⟨some [], none⟩,
          ⟨2026, 9, 12, 8, 30, 0, 0⟩, fun _ => none, fun _ => "[out]"⟩ 1
        ⟨some "tok", some "L1", ⟨.missing, none⟩⟩ 0).st.files.bookmarkFile =
        .data ⟨some "L1", "2026-10-12T08:30:00.000Z", some caughtUpNote⟩) ∧
    ((runLoop
        ⟨.ok "tok", fun _ => .ok ⟨some [Json.num 7], none⟩,
          ⟨2026, 9, 12, 8, 30, 0, 0⟩, fun _ => none, fun _ => "[out]"⟩ 1
        ⟨some "tok", some "L1", ⟨.missing, none⟩⟩ 0).st.files.bookmarkFile =
        (⟨some "tok", some "L1", ⟨.missing, none⟩⟩ : St).files.bookmarkFile) := by
  refine ⟨⟨rfl, ?_⟩, ?_, ?_⟩
  · exact (C2_amended_cursor_persistence _ _ 0 "tok" "L1"
        ⟨some [Json.num 7], some "L2"⟩ rfl rfl rfl).1
      [Json.num 7] "L2" _ rfl (by simp) rfl rfl
  · exact (C2_amended_cursor_persistence _ _ 0 "tok" "L1"
        ⟨some [], none⟩ rfl rfl rfl).2.1 rfl
  · exact (C2_amended_cursor_persistence _ _ 0 "tok" "L1"
        ⟨some [Json.num 7], none⟩ rfl rfl rfl).2.2
      [Json.num 7] _ rfl (by simp) rfl rfl

/-- C3: a fetched page with zero records ends the loop: the run terminates
(`.done`, no further fetch in the trace) and the bookmark file is rewritten
with the *current* locator — unchanged up to the caught-up note and the
refreshed `lastUpdated` timestamp. -/
theorem C3_caught_up_persists_current_locator
    (env : Env) (st : St) (fuel total : Nat) (tok b : String) (page : Page)
    (htok : st.accessToken = some tok) (hbm : st.bookmark = some b)
    (hapi : env.api b = .ok page) (hz : page.results.getD [] = []) :
    runLoop env (fuel + 1) st total =
      ⟨{ st with files := { st.files with bookmarkFile :=
            (BookmarkFile.data ⟨some b, toISOString env.now, some caughtUpNote⟩) } },
        total,
        [Event.fetch b, Event.saveCaughtUp ⟨some b, toISOString env.now, some caughtUpNote⟩],
        .done⟩ := by
  have hf : fetchLogs env st = ([.fetch b], .ok page) := by
    simp [fetchLogs, htok, hbm, hapi]
  rw [runLoop_caught env fuel st total hf hz, hbm]
  rfl

/-- C3 witness: a source returning an empty page at locator `B`. -/
theorem C3_witness :
    ((⟨some "tok", some "B", ⟨.missing, none⟩⟩ : St).bookmark = some "B" ∧
      (⟨.ok "tok", fun _ => .ok ⟨some [], none⟩, ⟨2026, 9, 12, 8, 30, 0, 0⟩,
          fun _ => none, fun _ => "[out]"⟩ : Env).api "B" = .ok ⟨some [], none⟩) ∧
    runLoop
        ⟨.ok "tok", fun _ => .ok ⟨some [], none⟩, ⟨2026, 9, 12, 8, 30, 0, 0⟩,
          fun _ => none, fun _ => "[out]"⟩ 3
        ⟨some "tok", some "B", ⟨.missing, none⟩⟩ 0 =
      ⟨⟨some "tok", some "B",
          ⟨.data ⟨some "B", "2026-10-12T08:30:00.000Z", some caughtUpNote⟩, none⟩⟩,
        0,
        [Event.fetch "B",
          Event.saveCaughtUp ⟨some "B", "2026-10-12T08:30:00.000Z", some caughtUpNote⟩],
        .done⟩ := by
  refine ⟨⟨rfl, rfl⟩, ?_⟩
  exact C3_caught_up_persists_current_locator _ _ 2 0 "tok" "B"
    ⟨some [], none⟩ rfl rfl rfl rfl

/-- C4: a page with at least one record but no continuation locator ends the
loop after that page: the run result is `.done` and the trace contains no
fetch beyond the one that produced the page. -/
theorem C4_records_without_next_terminate
    (env : Env) (st : St) (fuel total : Nat) (tok b : String) (page : Page)
    (l : List Record) (st₁ : St)
    (htok : st.accessToken = some tok) (hbm : st.bookmark = some b)
    (hapi : env.api b = .ok page) (hres : page.results = some l) (hne : l ≠ [])
    (hnext : page.next = none)
    (happ : appendLogsToFile env st l = .ok st₁) :
    runLoop env (fuel + 1) st total =
      ⟨st₁, total + l.length, [Event.fetch b, Event.append l none], .done⟩ := by
  have hf : fetchLogs env st = ([.fetch b], .ok page) := by
    simp [fetchLogs, htok, hbm, hapi]
  have hz : page.results.getD [] ≠ [] := by simp [hres, hne]
  have ha2 : appendLogsToFile env st (page.results.getD []) = .ok st₁ := by
    rw [hres]
    exact happ
  have hn : truthyStr page.next = none := by rw [hnext]; rfl
  rw [runLoop_records_end env fuel st total hf hz ha2 hn, hres, hnext]
  rfl

/-- C4 witness: one page of two records with no `next`, plenty of fuel left. -/
theorem C4_witness :
    ((⟨.ok "tok", fun _ => .ok ⟨some [Json.num 1, Json.num 2], none⟩,
          ⟨2026, 9, 12, 8, 30, 0, 0⟩, fun _ => none, fun _ => "[out]"⟩ : Env).api "B" =
        .ok ⟨some [Json.num 1, Json.num 2], none⟩ ∧
      ([Json.num 1, Json.num 2] : List Record) ≠ []) ∧
    runLoop
        ⟨.ok "tok", fun _ => .ok ⟨some [Json.num 1, Json.num 2], none⟩,
          ⟨2026, 9, 12, 8, 30, 0, 0⟩, fun _ => none, fun _ => "[out]"⟩ 7
        ⟨some "tok", some "B", ⟨.missing, none⟩⟩ 0 =
      ⟨⟨some "tok", some "B", ⟨.missing, some "[out]"⟩⟩, 2,
        [Event.fetch "B", Event.append [Json.num 1, Json.num 2] none], .done⟩ := by
  refine ⟨⟨rfl, by simp⟩, ?_⟩
  exact C4_records_without_next_terminate _ _ 6 0 "tok" "B"
    ⟨some [Json.num 1, Json.num 2], none⟩ [Json.num 1, Json.num 2] _
    rfl rfl rfl rfl (by simp) rfl rfl

/-- C5: with no persisted cursor (file missing) or an unreadable/corrupt one,
`loadBookmark` synthesizes the locator
`https://{host}/api/audit/v1/logs?limit=1000&since={enc(ISO(now − N months))}`
where `N` is the configured lookback; an unconfigured lookback defaults
to 3. -/
theorem C5_seed_locator (c : ConfigIn) (env : Env) (st : St)
    (h : st.files.bookmarkFile = .missing ∨ st.files.bookmarkFile = .corrupt) :
    (loadBookmark (mkPuller c) env st).bookmark =
      some ("https://" ++ (mkPuller c).host ++ "/api/audit/v1/logs?limit=1000&since=" ++
        encodeURIComponent (toISOString
          (setMonthBack env.now (mkPuller c).initialLookbackMonths))) ∧
    (c.initialLookbackMonths = none → (mkPuller c).initialLookbackMonths = 3) := by
  constructor
  · rcases h with h | h <;> simp [loadBookmark, h, seedUrl]
  · intro hn
    simp [mkPuller, hn]

/-- C5 witness: default config, missing bookmark file, clock at
2026-10-12T08:30:00.000Z; the synthesized `since` is three months earlier,
ISO-8601 and URI-encoded. -/
theorem C5_witness :
    ((⟨some "tok", none, ⟨.missing, none⟩⟩ : St).files.bookmarkFile = .missing ∨
      (⟨some "tok", none, ⟨.missing, none⟩⟩ : St).files.bookmarkFile = .corrupt) ∧
    (loadBookmark (mkPuller {})
        ⟨.ok "tok", fun _ => .ok ⟨some [], none⟩, ⟨2026, 9, 12, 8, 30, 0, 0⟩,
          fun _ => none, fun _ => "[out]"⟩
        ⟨some "tok", none, ⟨.missing, none⟩⟩).bookmark =
      some "https://app.trelica.com/api/audit/v1/logs?limit=1000&since=2026-07-12T08%3A30%3A00.000Z" ∧
    ({} : ConfigIn).initialLookbackMonths = none ∧ (mkPuller {}).initialLookbackMonths = 3 := by
  have h := C5_seed_locator {}
    ⟨.ok "tok", fun _ => .ok ⟨some [], none⟩, ⟨2026, 9, 12, 8, 30, 0, 0⟩,
      fun _ => none, fun _ => "[out]"⟩
    ⟨some "tok", none, ⟨.missing, none⟩⟩ (Or.inl rfl)
  exact ⟨Or.inl rfl, h.1, rfl, h.2 rfl⟩

/-- C6: for every run (however it ends), the reported total equals the number
of records carried by the trace's `append` events — the sum of the record
counts of the pages appended during the run. -/
theorem C6_total_counts_appended_records
    (p : Puller) (env : Env) (fuel : Nat) (files : Files) :
    (pullLogs p env fuel files).total =
      appendedCount (pullLogs p env fuel files).trace := by
  rcases h : authenticate env ⟨none, none, files⟩ with e | st₁
  · simp only [pullLogs, h]
    rfl
  · simp only [pullLogs, h]
    simpa using runLoop_total env fuel (loadBookmark p env st₁) 0

/-- C7: if the token endpoint answers with a non-success status, the run
aborts before any fetch (empty trace), the error carries the HTTP status and
the payload's `error` field, and both files are exactly the files the run
started with. -/
theorem C7_auth_failure_aborts_untouched
    (p : Puller) (env : Env) (fuel : Nat) (files : Files)
    (status : Nat) (errorField : Option String)
    (h : env.auth = .httpErr status errorField) :
    pullLogs p env fuel files =
      ⟨⟨none, none, files⟩, 0, [], .err (.authFailed status errorField)⟩ := by
  have ha : authenticate env ⟨none, none, files⟩ =
      .error (.authFailed status errorField) := by
    simp [authenticate, h]
  simp only [pullLogs, ha]

/-- C7 witness: a 401 with `error = "invalid_client"`. -/
theorem C7_witness :
    (⟨.httpErr 401 (some "invalid_client"), fun _ => .ok ⟨some [], none⟩,
        ⟨2026, 9, 12, 8, 30, 0, 0⟩, fun _ => none, fun _ => "[out]"⟩ : Env).auth =
      .httpErr 401 (some "invalid_client") ∧
    pullLogs ⟨"app.trelica.com", 3⟩
        ⟨.httpErr 401 (some "invalid_client"), fun _ => .ok ⟨some [], none⟩,
          ⟨2026, 9, 12, 8, 30, 0, 0⟩, fun _ => none, fun _ => "[out]"⟩
        5 ⟨.data ⟨some "L1", "T0", none⟩, some "prev"⟩ =
      ⟨⟨none, none, ⟨.data ⟨some "L1", "T0", none⟩, some "prev"⟩⟩, 0, [],
        .err (.authFailed 401 (some "invalid_client"))⟩ := by
  exact ⟨rfl, C7_auth_failure_aborts_untouched _ _ 5 _ 401 (some "invalid_client") rfl⟩

/-- C8: with no bearer token held, `fetchLogs` fails with the
not-authenticated error and issues no request at all (no `fetch` event). -/
theorem C8_fetch_without_token_fails
    (env : Env) (st : St) (h : st.accessToken = none) :
    fetchLogs env st = ([], .error .notAuthenticated) := by
  simp [fetchLogs, h]

/-- C8 witness: fresh state, no token. -/
theorem C8_witness :
    (⟨none, some "B", ⟨.missing, none⟩⟩ : St).accessToken = none ∧
    fetchLogs
        ⟨.ok "tok", fun _ => .ok ⟨some [], none⟩, ⟨2026, 9, 12, 8, 30, 0, 0⟩,
          fun _ => none, fun _ => "[out]"⟩
        ⟨none, some "B", ⟨.missing, none⟩⟩ =
      ([], .error .notAuthenticated) := by
  exact ⟨rfl, C8_fetch_without_token_fails _ _ rfl⟩

/-- C9: a response body with no `results` field is treated as a page of zero
records: the loop terminates as caught up (`.done`, no error) and persists the
current locator with the caught-up note. -/
theorem C9_missing_results_treated_as_empty
    (env : Env) (st : St) (fuel total : Nat) (tok b : String) (nxt : Option String)
    (htok : st.accessToken = some tok) (hbm : st.bookmark = some b)
    (hapi : env.api b = .ok ⟨none, nxt⟩) :
    runLoop env (fuel + 1) st total =
      ⟨{ st with files := { st.files with bookmarkFile :=
            (BookmarkFile.data ⟨some b, toISOString env.now, some caughtUpNote⟩) } },
        total,
        [Event.fetch b, Event.saveCaughtUp ⟨some b, toISOString env.now, some caughtUpNote⟩],
        .done⟩ := by
  have hf : fetchLogs env st = ([.fetch b], .ok ⟨none, nxt⟩) := by
    simp [fetchLogs, htok, hbm, hapi]
  rw [runLoop_caught env fuel st total hf rfl, hbm]
  rfl

/-- C9 witness: a body with absent `results` (and even a `next` present). -/
theorem C9_witness :
    ((⟨.ok "tok", fun _ => .ok ⟨none, some "L2"⟩, ⟨2026, 9, 12, 8, 30, 0, 0⟩,
          fun _ => none, fun _ => "[out]"⟩ : Env).api "B" = .ok ⟨none, some "L2"⟩) ∧
    runLoop
        ⟨.ok "tok", fun _ => .ok ⟨none, some "L2"⟩, ⟨2026, 9, 12, 8, 30, 0, 0⟩,
          fun _ => none, fun _ => "[out]"⟩ 3
        ⟨some "tok", some "B", ⟨.missing, none⟩⟩ 0 =
      ⟨⟨some "tok", some "B",
          ⟨.data ⟨some "B", "2026-10-12T08:30:00.000Z", some caughtUpNote⟩, none⟩⟩,
        0,
        [Event.fetch "B",
          Event.saveCaughtUp ⟨some "B", "2026-10-12T08:30:00.000Z", some caughtUpNote⟩],
        .done⟩ := by
  refine ⟨rfl, ?_⟩
  exact C9_missing_results_treated_as_empty _ _ 2 0 "tok" "B" (some "L2") rfl rfl rfl

/-- C10: with a non-empty record list, if the existing output file is present
but `JSON.parse` fails on its content, `appendLogsToFile` succeeds, silently
treating the existing content as an empty list: the file afterwards holds only
the serialization of the new records, the old content is discarded. -/
theorem C10_unparseable_output_discarded
    (env : Env) (st : St) (logs : List Record) (s : String)
    (hne : logs ≠ []) (hout : st.files.outputFile = some s)
    (hparse : env.parse s = none) :
    appendLogsToFile env st logs =
      .ok { st with files := { st.files with
              outputFile := some (env.stringify logs) } } := by
  have he : logs.isEmpty = false := by
    cases logs with
    | nil => exact absurd rfl hne
    | cons a t => rfl
  simp [appendLogsToFile, he, hout, hparse]

/-- C10 witness: the output file holds `garbage` (unparseable under the run's
`JSON.parse`, which rejects everything here); the write keeps only the new
record. -/
theorem C10_witness :
    (([Json.null] : List Record) ≠ [] ∧
      (⟨some "tok", some "B", ⟨.missing, some "garbage"⟩⟩ : St).files.outputFile =
        some "garbage" ∧
      (⟨.ok "tok", fun _ => .ok ⟨some [], none⟩, ⟨2026, 9, 12, 8, 30, 0, 0⟩,
          fun _ => none, fun _ => "[new]"⟩ : Env).parse "garbage" = none) ∧
    appendLogsToFile
        ⟨.ok "tok", fun _ => .ok ⟨some [], none⟩, ⟨2026, 9, 12, 8, 30, 0, 0⟩,
          fun _ => none, fun _ => "[new]"⟩
        ⟨some "tok", some "B", ⟨.missing, some "garbage"⟩⟩ [Json.null] =
      .ok ⟨some "tok", some "B", ⟨.missing, some "[new]"⟩⟩ := by
  refine ⟨⟨by simp, rfl, rfl⟩, ?_⟩
  exact C10_unparseable_output_discarded _ _ [Json.null] "garbage" (by simp) rfl rfl

end Trelica
